import Mathlib

/-!
Verification of the SmplParser lexical scanner (src/scanner.rs, src/token.rs)
against its natural-language specification.

The Rust code is shallowly embedded: the scanner's VecDeque is a Lean list
whose head is the front of the queue; methods that mutate the scanner become
functions returning the result together with the remaining queue.  Code that
can call panic! (or .unwrap() on a None/Err) is modelled with Option or with
the PRes type below, where the absence of a value stands for process abort.
Machine integers (i64) are modelled by Int; no claim in scope depends on
64-bit overflow behaviour.  Rust's Unicode character classes (is_alphabetic,
is_whitespace, ...) are modelled by Lean's ASCII classifiers, which agree on
every character any claim mentions.
-/

/-- ScannerAction from scanner.rs: the verdict a matcher closure returns
about the accumulated prefix.  The Rust enum has variants Return, Request,
Require and None. -/
inductive ScannerAction (U : Type) : Type
  | Return (u : U)
  | Request (u : U)
  | Require
  | None
deriving Repr

/-- The two error strings Scanner::scan can produce: "EOF" (exhaustion while
a match was still required) and "TODO: Error" (an element was rejected while
a match was still required).  The spec names them UnexpectedEnd and
UnexpectedToken. -/
inductive ScanErr : Type
  | unexpectedEnd
  | unexpectedToken
deriving Repr, DecidableEq

/-- Scanner::test - true iff an element exists at the front and satisfies
the predicate, without consuming. -/
def testSc {T : Type} (p : T → Bool) (q : List T) : Bool :=
  q.head?.any p

/-- Scanner::take - consumes and returns the next element iff the predicate
holds, otherwise leaves the queue unchanged (returns nothing). -/
def takeSc {T : Type} (p : T → Bool) : List T → Option (T × List T)
  | [] => none
  | t :: rest => if p t then some (t, rest) else none

/-- Scanner::take_while - consumes the maximal run of leading elements all
satisfying the predicate; returns the run and the remaining queue. -/
def takeWhileSc {T : Type} (p : T → Bool) : List T → List T × List T
  | [] => ([], [])
  | t :: rest =>
    if p t then
      let r := takeWhileSc p rest
      (t :: r.1, r.2)
    else ([], t :: rest)

/-- The loop of Scanner::scan (scanner.rs lines 61-85).  sequence is the
accumulated prefix, request the pending Request result, require the
must-extend flag; the queue is consumed from the front and on rejection the
single most recent element is pushed back. -/
def scanLoop {T U : Type} (cb : List T → ScannerAction U)
    (request : Option U) (require : Bool) (sequence : List T) :
    List T → Except ScanErr (Option U) × List T
  | [] => (if require then Except.error ScanErr.unexpectedEnd else Except.ok request, [])
  | t :: rest =>
    match cb (sequence ++ [t]) with
    | ScannerAction.Return res => (Except.ok (some res), rest)
    | ScannerAction.Request res => scanLoop cb (some res) false (sequence ++ [t]) rest
    | ScannerAction.Require => scanLoop cb request true (sequence ++ [t]) rest
    | ScannerAction.None =>
      (if require then Except.error ScanErr.unexpectedToken else Except.ok request,
       t :: rest)

/-- Scanner::scan - runs the loop starting from an empty prefix, no pending
result and no must-extend obligation. -/
def scan {T U : Type} (cb : List T → ScannerAction U) (q : List T) :
    Except ScanErr (Option U) × List T :=
  scanLoop cb none false [] q

/-- Delimiter from token.rs. -/
inductive Delimiter : Type
  | Parenthesis
  | Brace
  | Bracket
  | None
deriving Repr, DecidableEq

/-- Delimiter::from_open: the characters recognised as group openers.  Note
that the NUL character opens a Delimiter::None group. -/
def Delimiter.fromOpen (c : Char) : Option Delimiter :=
  match c with
  | '(' => some Delimiter.Parenthesis
  | '[' => some Delimiter.Bracket
  | '{' => some Delimiter.Brace
  | '\x00' => some Delimiter.None
  | _ => none

/-- Delimiter::from_close. -/
def Delimiter.fromClose (c : Char) : Option Delimiter :=
  match c with
  | ')' => some Delimiter.Parenthesis
  | ']' => some Delimiter.Bracket
  | '}' => some Delimiter.Brace
  | '\x00' => some Delimiter.None
  | _ => none

/-- Delimiter::close - the closing character of each delimiter kind. -/
def Delimiter.close : Delimiter → Char
  | Delimiter.Parenthesis => ')'
  | Delimiter.Bracket => ']'
  | Delimiter.Brace => '}'
  | Delimiter.None => '\x00'

/-- Token from token.rs.  The Rust enum has exactly these six constructors;
there is no Comment constructor, and Group holds a nested token list.
Number's i64 payload is modelled by Int. -/
inductive Token : Type
  | Group (d : Delimiter) (ts : List Token)
  | Ident (s : String)
  | Punct (c : Char)
  | String (s : String)
  | Char (c : Char)
  | Number (n : Int)
deriving Repr

/-- Rust char::to_digit's value for the digit characters 0-9, a-z, A-Z
(letters case-insensitively denote 10..35); other characters are never
queried under isDigitR below. -/
def digitValR (c : Char) : Nat :=
  if '0' ≤ c ∧ c ≤ '9' then c.toNat - '0'.toNat
  else if 'a' ≤ c ∧ c ≤ 'z' then c.toNat - 'a'.toNat + 10
  else if 'A' ≤ c ∧ c ≤ 'Z' then c.toNat - 'A'.toNat + 10
  else 0

/-- Whether c belongs to the alphabet char::to_digit draws digits from. -/
def isDigitCharR (c : Char) : Bool :=
  ('0' ≤ c && c ≤ '9') || ('a' ≤ c && c ≤ 'z') || ('A' ≤ c && c ≤ 'Z')

/-- Rust char::is_digit(b): c is a valid digit in base b. -/
def isDigitR (b : Nat) (c : Char) : Bool :=
  isDigitCharR c && digitValR c < b

/-- The numeric value of a digit string in base b (all characters assumed
valid base-b digits), as i64::from_str_radix / str::parse compute it. -/
def parseRadix (b : Nat) (cs : List Char) : Nat :=
  cs.foldl (fun acc c => acc * b + digitValR c) 0

/-- The matcher closure passed to scan by match_number (token.rs lines
91-120), transcribed arm by arm; Rust's match guards become if-then-else
whose else branch is the arm the guarded match would fall through to (in
every case the final catch-all, whose own guard is then false). -/
def numCb (chars : List Char) : ScannerAction Token :=
  match chars with
  | ['-'] => ScannerAction.Request (Token.Punct '-')
  | '-' :: ds =>
    if ds.all (isDigitR 10) then
      ScannerAction.Request (Token.Number (-(parseRadix 10 ds : Int)))
    else ScannerAction.None
  | ['0'] => ScannerAction.Request (Token.Number 0)
  | ['0', 'x'] => ScannerAction.Require
  | '0' :: 'x' :: ds =>
    if ds.all (isDigitR 16) then
      ScannerAction.Request (Token.Number (parseRadix 16 ds : Int))
    else ScannerAction.None
  | ['0', 'o'] => ScannerAction.Require
  | '0' :: 'o' :: ds =>
    if ds.all (isDigitR 8) then
      ScannerAction.Request (Token.Number (parseRadix 8 ds : Int))
    else ScannerAction.None
  | ['0', 'b'] => ScannerAction.Require
  | '0' :: 'b' :: ds =>
    if ds.all (isDigitR 2) then
      ScannerAction.Request (Token.Number (parseRadix 2 ds : Int))
    else ScannerAction.None
  | _ =>
    if chars.all (isDigitR 10) then
      ScannerAction.Request (Token.Number (parseRadix 10 chars : Int))
    else ScannerAction.None

/-- skip_whitespace - discards the leading run of whitespace characters. -/
def skipWhitespace (q : List Char) : List Char :=
  (takeWhileSc (fun c => c.isWhitespace) q).2

/-- match_identifier: accepted iff the next character is alphabetic or an
underscore; then greedily takes alphanumeric-or-underscore characters.
Never fails, never panics. -/
def matchIdentifier (q : List Char) : Option Token × List Char :=
  if testSc (fun c => c.isAlpha || c = '_') q then
    let r := takeWhileSc (fun c => c.isAlphanum || c = '_') q
    (some (Token.Ident (String.mk r.1)), r.2)
  else (none, q)

/-- match_number: accepted iff the next character is an ASCII digit or a
minus sign; then runs scan with numCb and unwraps the result - an Err from
scan makes the Rust code panic, modelled here as the outer none. -/
def matchNumberF (q : List Char) : Option (Option Token × List Char) :=
  if testSc (fun c => c.isDigit || c = '-') q then
    match scan numCb q with
    | (Except.ok r, q2) => some (r, q2)
    | (Except.error _, _) => none
  else some (none, q)

/-- The character-consuming loop of match_string (token.rs lines 129-141):
s is the accumulated content.  An unescaped quote closes the string; a
backslash must be followed by a quote (anything else, or end of input right
after the backslash, panics - the outer none); end of input without a
closing quote falls out of the Rust while-let loop and silently yields the
content read so far. -/
def strLoop (s : String) : List Char → Option (String × List Char)
  | [] => some (s, [])
  | c :: rest =>
    if c = '"' then some (s, rest)
    else if c = '\\' then
      match rest with
      | [] => none
      | c2 :: rest2 => if c2 = '"' then strLoop (s.push c2) rest2 else none
    else strLoop (s.push c) rest

/-- match_string: accepted iff the next character is a double quote; then
runs strLoop on the remainder. -/
def matchStringF : List Char → Option (Option Token × List Char)
  | [] => some (none, [])
  | c :: rest =>
    if c = '"' then
      match strLoop "" rest with
      | some (s, q2) => some (some (Token.String s), q2)
      | none => none
    else some (none, c :: rest)

/-- Closing step of match_char: take the closing quote or panic
("Unclosed character"). -/
def closeCharTok (c : Char) (q : List Char) : Option (Option Token × List Char) :=
  match takeSc (fun d => d = '\'') q with
  | some (_, rest) => some (some (Token.Char c), rest)
  | none => none

/-- match_char: accepted iff the next character is a single quote; reads one
character (pop().unwrap() - panics on empty input), resolves an escaped
quote (any other escape panics), then requires the closing quote. -/
def matchCharF : List Char → Option (Option Token × List Char)
  | [] => some (none, [])
  | c :: rest =>
    if c = '\'' then
      match rest with
      | [] => none
      | c1 :: rest1 =>
        if c1 = '\\' then
          match rest1 with
          | [] => none
          | c2 :: rest2 => if c2 = '\'' then closeCharTok c2 rest2 else none
        else closeCharTok c1 rest1
    else some (none, c :: rest)

/-- Scanner::transform specialised to Delimiter::from_open, as match_group
uses it: peek, classify, and consume the opener on success. -/
def transformOpen (q : List Char) : Option (Delimiter × List Char) :=
  match q with
  | [] => none
  | c :: rest =>
    match Delimiter.fromOpen c with
    | some d => some (d, rest)
    | none => none

/-- Result of running embedded Rust code that can panic and whose loops are
driven by fuel: ok is a normal return, panicked models process abort
(panic! / .unwrap() failure), nofuel only ever arises when the fuel
parameter underestimates the total number of loop iterations - every
theorem below supplies enough fuel for nofuel not to occur. -/
inductive PRes (α : Type) : Type
  | ok (a : α)
  | panicked
  | nofuel
deriving Repr

/-- match_group (token.rs lines 70-81), parameterized by the recursive
tokenizer tkz: on an opening delimiter, consume it, tokenize the interior,
skip whitespace, and demand the matching closing character - its absence
panics ("Missing closing delimiter"). -/
def matchGroupGo (tkz : List Char → PRes (List Token × List Char))
    (q : List Char) : PRes (Option Token × List Char) :=
  match transformOpen q with
  | some (delim, q1) =>
    match tkz q1 with
    | PRes.ok (toks, q2) =>
      match takeSc (fun c => c = delim.close) (skipWhitespace q2) with
      | some (_, q4) => PRes.ok (some (Token.Group delim toks), q4)
      | none => PRes.panicked
    | PRes.panicked => PRes.panicked
    | PRes.nofuel => PRes.nofuel
  | none => PRes.ok (none, q)

/-- get_tok (token.rs lines 166-174), parameterized by the recursive
tokenizer used inside match_group: skip whitespace, then try the matchers
with or_else in the source's order - identifier, number, group, string,
char - threading the scanner state through each failed attempt. -/
def getTokGo (tkz : List Char → PRes (List Token × List Char))
    (q : List Char) : PRes (Option Token × List Char) :=
  match matchIdentifier (skipWhitespace q) with
  | (some t, q1) => PRes.ok (some t, q1)
  | (none, q1) =>
    match matchNumberF q1 with
    | none => PRes.panicked
    | some (some t, q2) => PRes.ok (some t, q2)
    | some (none, q2) =>
      match matchGroupGo tkz q2 with
      | PRes.ok (some t, q3) => PRes.ok (some t, q3)
      | PRes.ok (none, q3) =>
        match matchStringF q3 with
        | none => PRes.panicked
        | some (some t, q4) => PRes.ok (some t, q4)
        | some (none, q4) =>
          match matchCharF q4 with
          | none => PRes.panicked
          | some (r, q5) => PRes.ok (r, q5)
      | PRes.panicked => PRes.panicked
      | PRes.nofuel => PRes.nofuel

/-- tokenize_scanner (token.rs lines 176-182): repeatedly extract tokens
until get_tok yields none.  The Rust while-loop and the recursion through
match_group are both paid for by one unit of fuel per round. -/
def tokenizeScannerF : Nat → List Char → PRes (List Token × List Char)
  | 0, _ => PRes.nofuel
  | f + 1, q =>
    match getTokGo (tokenizeScannerF f) q with
    | PRes.ok (some t, q1) =>
      match tokenizeScannerF f q1 with
      | PRes.ok (toks, q2) => PRes.ok (t :: toks, q2)
      | PRes.panicked => PRes.panicked
      | PRes.nofuel => PRes.nofuel
    | PRes.ok (none, q1) => PRes.ok ([], q1)
    | PRes.panicked => PRes.panicked
    | PRes.nofuel => PRes.nofuel

/-- tokenize (token.rs lines 184-187).  A fuel of twice the input length
plus two dominates the number of loop rounds and nested group entries: each
round either consumes at least one character or ends one tokenize_scanner
level, and there are at most length plus one levels. -/
def tokenize (code : String) : PRes (List Token) :=
  match tokenizeScannerF (2 * code.data.length + 2) code.data with
  | PRes.ok (toks, _) => PRes.ok toks
  | PRes.panicked => PRes.panicked
  | PRes.nofuel => PRes.nofuel

/-- Spec-side transcription of the lookahead protocol, following the
numbered steps of spec section 4.1 word for word: step 1 terminates on
exhaustion (UnexpectedEnd when must_extend is set, otherwise the pending
result); step 2 consumes the next element, appends it to the prefix and
invokes the matcher; step 3 (rejection) puts the just-consumed element back
and terminates (UnexpectedToken when must_extend is set, otherwise the
pending result); step 4 (Return v) terminates with some v keeping the
element consumed; step 5 (Request v) records v as pending, clears
must_extend and continues; step 6 (Require) sets must_extend and continues
without changing pending. -/
def specScanLoop {T U : Type} (matcher : List T → ScannerAction U)
    (pending : Option U) (mustExtend : Bool) (pfx : List T) :
    List T → Except ScanErr (Option U) × List T
  | [] =>
    (if mustExtend then Except.error ScanErr.unexpectedEnd else Except.ok pending, [])
  | t :: rest =>
    match matcher (pfx ++ [t]) with
    | ScannerAction.None =>
      (if mustExtend then Except.error ScanErr.unexpectedToken else Except.ok pending,
       t :: rest)
    | ScannerAction.Return v => (Except.ok (some v), rest)
    | ScannerAction.Request v => specScanLoop matcher (some v) false (pfx ++ [t]) rest
    | ScannerAction.Require => specScanLoop matcher pending true (pfx ++ [t]) rest

/-- Spec-side entry point: the protocol starts with an empty prefix, empty
pending slot and cleared must_extend obligation. -/
def specScan {T U : Type} (matcher : List T → ScannerAction U) (q : List T) :
    Except ScanErr (Option U) × List T :=
  specScanLoop matcher none false [] q

theorem scanLoop_eq_specScanLoop {T U : Type} (cb : List T → ScannerAction U) :
    ∀ (q : List T) (pending : Option U) (mustExtend : Bool) (pfx : List T),
      scanLoop cb pending mustExtend pfx q = specScanLoop cb pending mustExtend pfx q := by
  intro q
  induction q with
  | nil => intro pending mustExtend pfx; rfl
  | cons t rest ih =>
    intro pending mustExtend pfx
    show scanLoop cb pending mustExtend pfx (t :: rest)
        = specScanLoop cb pending mustExtend pfx (t :: rest)
    rw [scanLoop, specScanLoop]
    cases cb (pfx ++ [t]) with
    | Return v => rfl
    | Request v => exact ih (some v) false (pfx ++ [t])
    | Require => exact ih pending true (pfx ++ [t])
    | None => rfl

/-- C1: Scanner::scan follows the lookahead protocol of spec section 4.1:
for every matcher and every finite input, the implementation loop (which
pops the next element, appends it to the growing prefix and dispatches on
the matcher's action: Return(v) terminates with Some(v) keeping the element
consumed, Request(v) stores v as the pending result and clears the
must-extend obligation, Require sets the obligation without touching the
pending result, and exhaustion fails with UnexpectedEnd exactly when the
obligation is set, succeeding with the possibly-empty pending result
otherwise) coincides with the spec-side protocol transcription. -/
theorem scan_follows_lookahead_protocol {T U : Type}
    (cb : List T → ScannerAction U) (q : List T) :
    scan cb q = specScan cb q :=
  scanLoop_eq_specScanLoop cb q none false []

/-- A matcher that requires an extension on the first element and rejects
the two-element prefix: it drives scan into the rejection branch after one
element has already been consumed under Require. -/
def cbRequireThenReject : List Nat → ScannerAction Nat :=
  fun l => if 2 ≤ l.length then ScannerAction.None else ScannerAction.Require

/-- C2 counterexample: a scan call that terminates with a rejection (the
matcher returns no action for the prefix [1, 2], surfacing as the
UnexpectedToken error) leaves the queue [2], not the original remaining
input [1, 2]: the element 1, consumed in the earlier Require round, is lost
rather than restored, so the claimed rollback invariant fails. -/
theorem scan_rejection_loses_consumed_element :
    scan cbRequireThenReject [1, 2] = (Except.error ScanErr.unexpectedToken, [2])
      ∧ ([2] : List Nat) ≠ [1, 2] := by
  exact ⟨rfl, by simp⟩

theorem scanLoop_queue_suffix {T U : Type} (cb : List T → ScannerAction U) :
    ∀ (q : List T) (pending : Option U) (mustExtend : Bool) (pfx : List T),
      (scanLoop cb pending mustExtend pfx q).2 <:+ q := by
  intro q
  induction q with
  | nil => intro pending mustExtend pfx; exact ⟨[], rfl⟩
  | cons t rest ih =>
    intro pending mustExtend pfx
    show (scanLoop cb pending mustExtend pfx (t :: rest)).2 <:+ t :: rest
    rw [scanLoop]
    cases cb (pfx ++ [t]) with
    | Return v => exact ⟨[t], rfl⟩
    | Request v =>
      obtain ⟨u, hu⟩ := ih (some v) false (pfx ++ [t])
      exact ⟨t :: u, by rw [List.cons_append, hu]⟩
    | Require =>
      obtain ⟨u, hu⟩ := ih pending true (pfx ++ [t])
      exact ⟨t :: u, by rw [List.cons_append, hu]⟩
    | None => exact ⟨[], rfl⟩

/-- C2 amended: if a scan call terminates with a rejection of the very
first element it examined (in particular, whenever a rejection produces the
empty Ok(None) result), the remaining input equals the original remaining
input before the call; in general the queue after any scan call is a
contiguous suffix of the original input - only the single most recently
examined element is restored on rejection, while elements consumed under
earlier Request or Require actions stay consumed. -/
theorem scan_rollback_amended :
    (∀ {T U : Type} (cb : List T → ScannerAction U) (t : T) (rest : List T),
        cb [t] = ScannerAction.None → scan cb (t :: rest) = (Except.ok none, t :: rest))
      ∧ (∀ {T U : Type} (cb : List T → ScannerAction U) (q : List T),
        (scan cb q).2 <:+ q) := by
  constructor
  · intro T U cb t rest h
    show scanLoop cb none false [] (t :: rest) = (Except.ok none, t :: rest)
    rw [scanLoop]
    simp only [List.nil_append, h]
    rfl
  · intro T U cb q
    exact scanLoop_queue_suffix cb q none false []

/-- A matcher that rejects every prefix outright. -/
def cbAllNone : List Nat → ScannerAction Nat :=
  fun _ => ScannerAction.None

/-- Witness for scan_rollback_amended at the concrete matcher that rejects
immediately and the concrete queue [1, 2]. -/
theorem scan_rollback_amended_witness :
    scan cbAllNone [1, 2] = (Except.ok none, [1, 2])
      ∧ (scan cbAllNone [1, 2]).2 <:+ [1, 2] :=
  ⟨scan_rollback_amended.1 cbAllNone 1 [2] rfl,
   scan_rollback_amended.2 cbAllNone [1, 2]⟩

/-- C3 (code bug): the Rust tokenize entry point has signature
"pub fn tokenize(code : &str) -> Vec<Token>" - a bare token sequence, not a
result type - and on the malformed numeric prefix "0x" the scan inside
match_number returns Err("EOF"), which match_number immediately .unwrap()s
(a TODO-marked panic site), aborting the process.  The embedding evaluates
that crash: tokenize "0x" panics instead of reporting a structured error. -/
theorem tokenize_crashes_on_bad_prefix : tokenize "0x" = PRes.panicked := rfl

/-- Lifts a panic-capable matcher result into PRes. -/
def pResOfPanic : Option (Option Token × List Char) → PRes (Option Token × List Char)
  | some r => PRes.ok r
  | none => PRes.panicked

/-- The identifier matcher as a first-match-wins alternative. -/
def mIdent (q : List Char) : PRes (Option Token × List Char) :=
  PRes.ok (matchIdentifier q)

/-- The number matcher as a first-match-wins alternative. -/
def mNum (q : List Char) : PRes (Option Token × List Char) :=
  pResOfPanic (matchNumberF q)

/-- The group matcher as a first-match-wins alternative. -/
def mGroupW (tkz : List Char → PRes (List Token × List Char))
    (q : List Char) : PRes (Option Token × List Char) :=
  matchGroupGo tkz q

/-- The string matcher as a first-match-wins alternative. -/
def mStr (q : List Char) : PRes (Option Token × List Char) :=
  pResOfPanic (matchStringF q)

/-- The char matcher as a first-match-wins alternative. -/
def mChar (q : List Char) : PRes (Option Token × List Char) :=
  pResOfPanic (matchCharF q)

/-- Spec-side first-match-wins alternation: try each matcher in the listed
order, threading the scanner state through matchers that return no token;
the first token, panic or fuel exhaustion wins; if no matcher fires the
result is no token. -/
def firstMatch : List (List Char → PRes (Option Token × List Char)) →
    List Char → PRes (Option Token × List Char)
  | [], q => PRes.ok (none, q)
  | m :: ms, q =>
    match m q with
    | PRes.ok (none, q1) => firstMatch ms q1
    | r => r

/-- C4 amended: get_tok skips whitespace and then tries the matchers by
first-match-wins alternation in the source's fixed priority order
identifier, number, group, string, character literal; there is no comment
matcher and no punctuation fallback, so when no matcher fires get_tok
yields no token and the tokenize loop stops - possibly with input still
remaining. -/
theorem getTok_priority_order_amended :
    (∀ (tkz : List Char → PRes (List Token × List Char)) (q : List Char),
        getTokGo tkz q
          = firstMatch [mIdent, mNum, mGroupW tkz, mStr, mChar] (skipWhitespace q))
      ∧ (∀ (f : Nat) (q q' : List Char),
        getTokGo (tokenizeScannerF f) q = PRes.ok (none, q') →
          tokenizeScannerF (f + 1) q = PRes.ok ([], q')) := by
  constructor
  · intro tkz q
    simp only [getTokGo, firstMatch, mIdent, mNum, mGroupW, mStr, mChar]
    rcases hI : matchIdentifier (skipWhitespace q) with ⟨tI, q1⟩
    cases tI with
    | some t => simp [hI]
    | none =>
      simp only [hI]
      rcases hN : matchNumberF q1 with _ | ⟨tN, q2⟩
      · simp [pResOfPanic]
      · cases tN with
        | some t => simp [pResOfPanic]
        | none =>
          simp only [pResOfPanic]
          cases hG : matchGroupGo tkz q2 with
          | ok r =>
            obtain ⟨tG, q3⟩ := r
            cases tG with
            | some t => simp
            | none =>
              simp only [firstMatch]
              rcases hS : matchStringF q3 with _ | ⟨tS, q4⟩
              · simp [pResOfPanic]
              · cases tS with
                | some t => simp [pResOfPanic]
                | none =>
                  simp only [pResOfPanic, firstMatch]
                  rcases hC : matchCharF q4 with _ | ⟨tC, q5⟩
                  · simp [pResOfPanic]
                  · cases tC with
                    | some t => simp [pResOfPanic]
                    | none => simp [pResOfPanic, firstMatch]
          | panicked => simp
          | nofuel => simp
  · intro f q q' h
    have e : tokenizeScannerF (f + 1) q
        = match getTokGo (tokenizeScannerF f) q with
          | PRes.ok (some t, q1) =>
            match tokenizeScannerF f q1 with
            | PRes.ok (toks, q2) => PRes.ok (t :: toks, q2)
            | PRes.panicked => PRes.panicked
            | PRes.nofuel => PRes.nofuel
          | PRes.ok (none, q1) => PRes.ok ([], q1)
          | PRes.panicked => PRes.panicked
          | PRes.nofuel => PRes.nofuel := rfl
    rw [e, h]

/-- C4 counterexample: on the input "/" no matcher fires (there is no
punctuation fallback in the code), so the tokenize loop stops with the
slash still unconsumed and produces no token at all - the claim's
Punct('/') is never emitted, and the loop terminates with input remaining
rather than only at end of input. -/
theorem tokenize_stops_without_punct_fallback :
    tokenizeScannerF 5 ['/'] = PRes.ok ([], ['/'])
      ∧ tokenize "/" = PRes.ok []
      ∧ PRes.ok ([] : List Token) ≠ PRes.ok [Token.Punct '/'] := by
  refine ⟨rfl, rfl, ?_⟩
  simp

/-- Witness for getTok_priority_order_amended: at the concrete state where
get_tok yields no token (input "/"), the tokenize loop stops and returns
the tokens collected so far. -/
theorem getTok_priority_order_amended_witness :
    tokenizeScannerF 4 ['/'] = PRes.ok ([], ['/']) :=
  getTok_priority_order_amended.2 3 ['/'] ['/'] rfl

/-- C5 counterexample: the code has no comment matcher at all - a line
comment input produces no Comment token (tokenization stops at the slash
with zero tokens), a block comment input likewise, and a lone slash is not
emitted as Punct('/'). -/
theorem tokenize_slash_yields_no_tokens :
    tokenize "// text" = PRes.ok []
      ∧ tokenize "/* a */" = PRes.ok []
      ∧ PRes.ok ([] : List Token) ≠ PRes.ok [Token.Punct '/'] := by
  refine ⟨rfl, rfl, ?_⟩
  simp

/-- C5 amended: when the next character is a slash, no matcher applies -
get_tok consumes nothing and yields no token, and the tokenize loop
terminates immediately, leaving the slash and everything after it
unconsumed; no Comment token and no Punct('/') token is produced. -/
theorem slash_never_matches_amended :
    (∀ (tkz : List Char → PRes (List Token × List Char)) (rest : List Char),
        getTokGo tkz ('/' :: rest) = PRes.ok (none, '/' :: rest))
      ∧ (∀ (f : Nat) (rest : List Char),
        tokenizeScannerF (f + 1) ('/' :: rest) = PRes.ok ([], '/' :: rest)) :=
  ⟨fun _ _ => rfl, fun _ _ => rfl⟩

/-- C6: tokenizing the space-joined number line yields exactly nine Number
tokens with the values 0, 0, 0, 0, 62263, -62263, 62263, 62263, 62263 in
order - the hex, octal and binary encodings of 62263 produce the same
value as the decimal literal. -/
theorem tokenize_number_line :
    tokenize "0 0x0 0o0 0b0 62263 -62263 0xF337 0o171467 0b1111001100110111"
      = PRes.ok [Token.Number 0, Token.Number 0, Token.Number 0, Token.Number 0,
          Token.Number 62263, Token.Number (-62263), Token.Number 62263,
          Token.Number 62263, Token.Number 62263] := rfl


theorem scanNumPrefixFailAux (p : Char) (b : Nat)
    (h1 : numCb ['0', p] = ScannerAction.Require)
    (h2 : ∀ c : Char, numCb ['0', p, c]
        = if [c].all (isDigitR b) then
            ScannerAction.Request (Token.Number (parseRadix b [c] : Int))
          else ScannerAction.None)
    (rest : List Char)
    (hrest : ∀ c cs, rest = c :: cs → isDigitR b c = false) :
    (scan numCb ('0' :: p :: rest)).1
        = Except.error
            (if rest.isEmpty then ScanErr.unexpectedEnd else ScanErr.unexpectedToken)
      ∧ (scan numCb ('0' :: p :: rest)).1 ≠ Except.ok (some (Token.Number 0))
      ∧ matchNumberF ('0' :: p :: rest) = none := by
  have n1 : numCb ['0'] = ScannerAction.Request (Token.Number 0) := rfl
  cases rest with
  | nil =>
    have main : scan numCb ['0', p] = (Except.error ScanErr.unexpectedEnd, []) := by
      simp [scan, scanLoop, n1, h1]
    have e2 : matchNumberF ['0', p]
        = match scan numCb ['0', p] with
          | (Except.ok r, q2) => some (r, q2)
          | (Except.error _, _) => none := rfl
    refine ⟨by rw [main]; rfl, by rw [main]; simp, by rw [e2, main]⟩
  | cons c cs =>
    have hc : isDigitR b c = false := hrest c cs rfl
    have hN : numCb ['0', p, c] = ScannerAction.None := by
      rw [h2 c]
      simp [hc]
    have main : scan numCb ('0' :: p :: c :: cs)
        = (Except.error ScanErr.unexpectedToken, c :: cs) := by
      simp [scan, scanLoop, n1, h1, hN]
    have e2 : matchNumberF ('0' :: p :: c :: cs)
        = match scan numCb ('0' :: p :: c :: cs) with
          | (Except.ok r, q2) => some (r, q2)
          | (Except.error _, _) => none := rfl
    refine ⟨by rw [main]; rfl, by rw [main]; simp, by rw [e2, main]⟩

/-- C7: whenever a base prefix 0x, 0o or 0b is not followed by a valid
digit of the matching base, the scan run by match_number fails with
UnexpectedEnd (input exhausted right after the prefix) or UnexpectedToken
(the next element was rejected), never succeeding with Number(0); the
surrounding match_number then panics on the .unwrap() of that error
(the final conjunct, the outer none). -/
theorem base_prefix_without_digit_fails (p : Char) (b : Nat)
    (hpb : (p = 'x' ∧ b = 16) ∨ (p = 'o' ∧ b = 8) ∨ (p = 'b' ∧ b = 2))
    (rest : List Char)
    (hrest : ∀ c cs, rest = c :: cs → isDigitR b c = false) :
    (scan numCb ('0' :: p :: rest)).1
        = Except.error
            (if rest.isEmpty then ScanErr.unexpectedEnd else ScanErr.unexpectedToken)
      ∧ (scan numCb ('0' :: p :: rest)).1 ≠ Except.ok (some (Token.Number 0))
      ∧ matchNumberF ('0' :: p :: rest) = none := by
  rcases hpb with ⟨hp, hb⟩ | ⟨hp, hb⟩ | ⟨hp, hb⟩
  · subst hp; subst hb
    exact scanNumPrefixFailAux 'x' 16 rfl (fun _ => rfl) rest hrest
  · subst hp; subst hb
    exact scanNumPrefixFailAux 'o' 8 rfl (fun _ => rfl) rest hrest
  · subst hp; subst hb
    exact scanNumPrefixFailAux 'b' 2 rfl (fun _ => rfl) rest hrest

/-- Witness for base_prefix_without_digit_fails at the hex prefix followed
by the non-hex character g: the scan fails with UnexpectedToken and
match_number panics. -/
theorem base_prefix_without_digit_fails_witness :
    (scan numCb ('0' :: 'x' :: ['g'])).1
        = Except.error
            (if (['g'] : List Char).isEmpty then ScanErr.unexpectedEnd
             else ScanErr.unexpectedToken)
      ∧ (scan numCb ('0' :: 'x' :: ['g'])).1 ≠ Except.ok (some (Token.Number 0))
      ∧ matchNumberF ('0' :: 'x' :: ['g']) = none :=
  base_prefix_without_digit_fails 'x' 16 (Or.inl ⟨rfl, rfl⟩) ['g']
    (by intro c cs h; cases h; decide)

/-- C8 counterexample: on input consisting of an opening quote and two
content characters with no closing quote, match_string's loop simply runs
out of input and returns the partial content as a successful String token -
tokenization succeeds and nothing resembling a fatal UnterminatedString
condition occurs (in the embedding a crash would be PRes.panicked). -/
theorem unterminated_string_silently_succeeds :
    tokenize "\"ab" = PRes.ok [Token.String "ab"]
      ∧ PRes.ok [Token.String "ab"] ≠ (PRes.panicked : PRes (List Token)) := by
  refine ⟨rfl, ?_⟩
  simp

/-- A run of string-content characters containing neither a quote nor a
backslash, so the match_string loop copies it verbatim. -/
abbrev PlainStr (cs : List Char) : Prop := ∀ c ∈ cs, c ≠ '"' ∧ c ≠ '\\'

theorem push_data (s : String) (c : Char) : (s.push c).data = s.data ++ [c] := by
  cases s
  rfl

theorem strLoop_plain (cs : List Char) (h : PlainStr cs) :
    ∀ (s : String) (t : List Char),
      strLoop s (cs ++ t) = strLoop (String.mk (s.data ++ cs)) t := by
  induction cs with
  | nil =>
    intro s t
    cases s
    simp
  | cons c cs' ih =>
    intro s t
    have hc := h c (List.mem_cons_self c cs')
    have step : strLoop s (c :: (cs' ++ t)) = strLoop (s.push c) (cs' ++ t) := by
      rw [strLoop.eq_def]
      show (if c = '"' then some (s, cs' ++ t)
          else if c = '\\' then
            (match cs' ++ t with
             | [] => none
             | c2 :: rest2 => if c2 = '"' then strLoop (s.push c2) rest2 else none)
          else strLoop (s.push c) (cs' ++ t)) = strLoop (s.push c) (cs' ++ t)
      rw [if_neg hc.1, if_neg hc.2]
    rw [List.cons_append, step,
      ih (fun d hd => h d (List.mem_cons_of_mem c hd)) (s.push c) t]
    simp [push_data]

theorem strLoop_quote (s : String) (rest : List Char) :
    strLoop s ('"' :: rest) = some (s, rest) := by
  rw [strLoop.eq_def]
  simp

theorem strLoop_esc_quote (s : String) (rest : List Char) :
    strLoop s ('\\' :: '"' :: rest) = strLoop (s.push '"') rest := by
  rw [strLoop.eq_def]
  simp

theorem strLoop_esc_bad (s : String) (c : Char) (rest : List Char) (hc : c ≠ '"') :
    strLoop s ('\\' :: c :: rest) = none := by
  rw [strLoop.eq_def]
  simp [hc]

/-- C8 amended: when the next character is a double quote, match_string
reads characters until an unescaped quote; a backslash followed by a quote
decodes to a literal quote; a backslash followed by any other character
aborts the process (the Unknown control sequence panic), as does a
backslash that ends the input; running out of input before the closing
quote is NOT an error - the loop silently succeeds with the content read so
far; on success the result is String(text) with escapes resolved and the
delimiting quotes excluded. -/
theorem match_string_behavior_amended :
    (∀ (cs rest : List Char), PlainStr cs →
        matchStringF ('"' :: (cs ++ '"' :: rest))
          = some (some (Token.String (String.mk cs)), rest))
      ∧ (∀ cs : List Char, PlainStr cs →
        matchStringF ('"' :: cs) = some (some (Token.String (String.mk cs)), []))
      ∧ (∀ (csa csb rest : List Char), PlainStr csa → PlainStr csb →
        matchStringF ('"' :: (csa ++ '\\' :: '"' :: (csb ++ '"' :: rest)))
          = some (some (Token.String (String.mk (csa ++ '"' :: csb))), rest))
      ∧ (∀ (cs : List Char) (c : Char) (rest : List Char), PlainStr cs → c ≠ '"' →
        matchStringF ('"' :: (cs ++ '\\' :: c :: rest)) = none)
      ∧ (∀ cs : List Char, PlainStr cs →
        matchStringF ('"' :: (cs ++ ['\\'])) = none) := by
  have mS : ∀ X : List Char, matchStringF ('"' :: X)
      = match strLoop "" X with
        | some (sv, q2) => some (some (Token.String sv), q2)
        | none => none := by
    intro X
    simp [matchStringF]
  refine ⟨?_, ?_, ?_, ?_, ?_⟩
  · intro cs rest h
    rw [mS, strLoop_plain cs h "" ('"' :: rest), strLoop_quote]
    rfl
  · intro cs h
    have e := strLoop_plain cs h "" []
    rw [List.append_nil] at e
    rw [mS, e]
    rfl
  · intro csa csb rest ha hb
    rw [mS, strLoop_plain csa ha "" ('\\' :: '"' :: (csb ++ '"' :: rest)),
      strLoop_esc_quote, strLoop_plain csb hb _ ('"' :: rest), strLoop_quote]
    simp [push_data]
  · intro cs c rest h hc
    rw [mS, strLoop_plain cs h "" ('\\' :: c :: rest), strLoop_esc_bad _ _ _ hc]
  · intro cs h
    rw [mS, strLoop_plain cs h "" ['\\']]
    rfl

/-- Witness for match_string_behavior_amended at the concrete unterminated
input quote-a-b: the loop runs out of input and silently succeeds with the
partial content. -/
theorem match_string_behavior_amended_witness :
    matchStringF ('"' :: ['a', 'b'])
      = some (some (Token.String (String.mk ['a', 'b'])), []) :=
  match_string_behavior_amended.2.1 ['a', 'b'] (by decide)

/-- The token vocabulary asserted by the claim: Ident, Number, Punct,
Comment, String, Char.  A Comment constructor does not exist in the code's
Token type at all, so membership reduces to not being a Group; Group tokens
(which the code does produce) are outside the claimed vocabulary. -/
def claimTokenForm : Token → Bool
  | Token.Group _ _ => false
  | _ => true

/-- C9 counterexample: tokenize produces a Group token containing a nested
Group token - the output is a tree, not a flat sequence drawn from the
claimed six constructors; the produced token is outside the claim's
vocabulary. -/
theorem tokenize_produces_nested_group :
    tokenize "((0))"
      = PRes.ok [Token.Group Delimiter.Parenthesis
          [Token.Group Delimiter.Parenthesis [Token.Number 0]]]
      ∧ claimTokenForm
          (Token.Group Delimiter.Parenthesis
            [Token.Group Delimiter.Parenthesis [Token.Number 0]]) = false :=
  ⟨rfl, rfl⟩

/-- C9 amended: every token is one of exactly Group(delimiter, token list),
Ident(text), Number(integer), Punct(char), String(text), Char(char); there
is no Comment form, and Group tokens carry nested token sequences (the
second conjunct exhibits a tokenize run producing one), so the output is a
tree rather than a flat sequence. -/
theorem token_forms_amended :
    (∀ t : Token,
        (∃ s, t = Token.Ident s) ∨ (∃ n, t = Token.Number n)
          ∨ (∃ c, t = Token.Punct c) ∨ (∃ s, t = Token.String s)
          ∨ (∃ c, t = Token.Char c) ∨ (∃ d ts, t = Token.Group d ts))
      ∧ (∃ code : String, tokenize code
          = PRes.ok [Token.Group Delimiter.Bracket [Token.Number 0]]) := by
  constructor
  · intro t
    cases t with
    | Group d ts => exact Or.inr (Or.inr (Or.inr (Or.inr (Or.inr ⟨d, ts, rfl⟩))))
    | Ident s => exact Or.inl ⟨s, rfl⟩
    | Punct c => exact Or.inr (Or.inr (Or.inl ⟨c, rfl⟩))
    | String s => exact Or.inr (Or.inr (Or.inr (Or.inl ⟨s, rfl⟩)))
    | Char c => exact Or.inr (Or.inr (Or.inr (Or.inr (Or.inl ⟨c, rfl⟩))))
    | Number n => exact Or.inr (Or.inl ⟨n, rfl⟩)
  · exact ⟨"[0]", rfl⟩

theorem matchGroupGo_nul_panicked
    (tkz : List Char → PRes (List Token × List Char)) (rest : List Char)
    (h : tkz rest = PRes.panicked) :
    matchGroupGo tkz ('\x00' :: rest) = PRes.panicked := by
  have e : matchGroupGo tkz ('\x00' :: rest)
      = match tkz rest with
        | PRes.ok (toks, q2) =>
          match takeSc (fun c => c = Delimiter.close Delimiter.None)
              (skipWhitespace q2) with
          | some (_, q4) => PRes.ok (some (Token.Group Delimiter.None toks), q4)
          | none => PRes.panicked
        | PRes.panicked => PRes.panicked
        | PRes.nofuel => PRes.nofuel := rfl
  rw [e, h]

theorem getTokGo_nul_panicked
    (tkz : List Char → PRes (List Token × List Char)) (rest : List Char)
    (h : matchGroupGo tkz ('\x00' :: rest) = PRes.panicked) :
    getTokGo tkz ('\x00' :: rest) = PRes.panicked := by
  have e : getTokGo tkz ('\x00' :: rest)
      = match matchGroupGo tkz ('\x00' :: rest) with
        | PRes.ok (some t, q3) => PRes.ok (some t, q3)
        | PRes.ok (none, q3) =>
          match matchStringF q3 with
          | none => PRes.panicked
          | some (some t, q4) => PRes.ok (some t, q4)
          | some (none, q4) =>
            match matchCharF q4 with
            | none => PRes.panicked
            | some (r, q5) => PRes.ok (r, q5)
        | PRes.panicked => PRes.panicked
        | PRes.nofuel => PRes.nofuel := rfl
  rw [e, h]

theorem nulChainAux (n : Nat) : ∀ g : Nat,
    tokenizeScannerF ((g + 2) + n) (List.replicate (n + 1) '\x00')
      = PRes.panicked := by
  induction n with
  | zero => intro g; rfl
  | succ n ih =>
    intro g
    have hG := matchGroupGo_nul_panicked
      (tokenizeScannerF ((g + 2) + n)) (List.replicate (n + 1) '\x00') (ih g)
    have hGT := getTokGo_nul_panicked
      (tokenizeScannerF ((g + 2) + n)) (List.replicate (n + 1) '\x00') hG
    have e : tokenizeScannerF (((g + 2) + n) + 1) ('\x00' :: List.replicate (n + 1) '\x00')
        = match getTokGo (tokenizeScannerF ((g + 2) + n))
              ('\x00' :: List.replicate (n + 1) '\x00') with
          | PRes.ok (some t, q1) =>
            match tokenizeScannerF ((g + 2) + n) q1 with
            | PRes.ok (toks, q2) => PRes.ok (t :: toks, q2)
            | PRes.panicked => PRes.panicked
            | PRes.nofuel => PRes.nofuel
          | PRes.ok (none, q1) => PRes.ok ([], q1)
          | PRes.panicked => PRes.panicked
          | PRes.nofuel => PRes.nofuel := rfl
    show tokenizeScannerF (((g + 2) + n) + 1) ('\x00' :: List.replicate (n + 1) '\x00')
        = PRes.panicked
    rw [e, hGT]

/-- C10 counterexample: on the two-character input of two NUL characters,
tokenize does not return Group(Delimiter::None, []) - it aborts: the inner
tokenize_scanner call consumes the would-be closing NUL as a fresh opener
(NUL is in from_open), so the closing take fails and match_group panics
with Missing closing delimiter. -/
theorem tokenize_double_nul_panics :
    tokenize "\x00\x00" = PRes.panicked
      ∧ PRes.panicked ≠ PRes.ok [Token.Group Delimiter.None []] := by
  refine ⟨rfl, ?_⟩
  simp

/-- C10 amended: tokenize does treat NUL as a group delimiter of kind
Delimiter::None (first conjunct), but because NUL is recognised as an
opener by the recursive interior tokenization, the closing NUL of a NUL
group is itself consumed as a new opener; consequently every input
consisting solely of NUL characters - the two-NUL input in particular -
aborts tokenization with the missing-closing-delimiter panic and never
yields Group(Delimiter::None, []). -/
theorem nul_group_always_aborts :
    Delimiter.fromOpen '\x00' = some Delimiter.None
      ∧ ∀ n : Nat, tokenize (String.mk (List.replicate (n + 1) '\x00'))
          = PRes.panicked := by
  refine ⟨rfl, fun n => ?_⟩
  have e : tokenize (String.mk (List.replicate (n + 1) '\x00'))
      = match tokenizeScannerF (2 * (List.replicate (n + 1) '\x00').length + 2)
            (List.replicate (n + 1) '\x00') with
        | PRes.ok (toks, _) => PRes.ok toks
        | PRes.panicked => PRes.panicked
        | PRes.nofuel => PRes.nofuel := rfl
  rw [e]
  have hl : (List.replicate (n + 1) '\x00').length = n + 1 :=
    List.length_replicate (n + 1) '\x00'
  rw [hl]
  have harith : 2 * (n + 1) + 2 = (n + 2 + 2) + n := by ring
  rw [harith, nulChainAux n (n + 2)]
